import Mathlib

/-!
Verification of the qutebrowser test-helper utilities
(`tests/helpers/testutils.py`) and of the cx_Freeze packaging script
(`scripts/freeze.py`).

Python values handled by `partial_compare` are embedded as the inductive
type `PyVal`; Python floats are modelled as rationals, and the
`pytest.approx` comparison is modelled from its documented formula.
The console printing (`print_i`) done by the helpers is side-effect only
and is omitted from the embedding.
-/

/-- A Python value as used by the comparison helpers: the scalars
`None`, `bool`, `int`, `float`, `str`, the containers `list`, `dict`
(a finite association of keys to values, kept in insertion order) and
`tuple`, and the `Ellipsis` sentinel. -/
inductive PyVal where
  | none : PyVal
  | bool : Bool → PyVal
  | int : Int → PyVal
  | float : ℚ → PyVal
  | str : String → PyVal
  | list : List PyVal → PyVal
  | dict : List (PyVal × PyVal) → PyVal
  | tuple : List PyVal → PyVal
  | ellipsis : PyVal

/-- The concrete Python type of a value, as compared by
`type(val1) != type(val2)` in `partial_compare`.  `bool` is its own
concrete type (distinct from `int`), exactly as in CPython. -/
inductive PyType where
  | noneType : PyType
  | boolType : PyType
  | intType : PyType
  | floatType : PyType
  | strType : PyType
  | listType : PyType
  | dictType : PyType
  | tupleType : PyType
  | ellipsisType : PyType
deriving DecidableEq

/-- Python `type(v)` for an embedded value. -/
def pyType : PyVal → PyType
  | .none => .noneType
  | .bool _ => .boolType
  | .int _ => .intType
  | .float _ => .floatType
  | .str _ => .strType
  | .list _ => .listType
  | .dict _ => .dictType
  | .tuple _ => .tupleType
  | .ellipsis => .ellipsisType

/-- Python `type(v).__name__`, used in the "Different types" message. -/
def pyTypeName : PyType → String
  | .noneType => "NoneType"
  | .boolType => "bool"
  | .intType => "int"
  | .floatType => "float"
  | .strType => "str"
  | .listType => "list"
  | .dictType => "dict"
  | .tupleType => "tuple"
  | .ellipsisType => "ellipsis"

/-- A simplified stand-in for Python `repr`, used only inside the
diagnostic strings of comparison outcomes (the exact text of those
strings is not load-bearing for any comparison result). -/
def pyRepr : PyVal → String
  | .none => "None"
  | .bool b => if b then "True" else "False"
  | .int n => toString n
  | .float q => toString q
  | .str s => "\x22" ++ s ++ "\x22"
  | .list _ => "[...]"
  | .dict _ => "dict(...)"
  | .tuple _ => "tuple(...)"
  | .ellipsis => "Ellipsis"

/-- The common numeric view CPython uses for `==` across `bool`, `int`
and `float`: `True` counts as `1`, `False` as `0`, and an int and a
float are equal when they denote the same number.  Non-numeric values
have no numeric view. -/
def pyNum? : PyVal → Option ℚ
  | .bool b => Option.some (if b then 1 else 0)
  | .int n => Option.some (n : ℚ)
  | .float q => Option.some q
  | _ => Option.none

mutual
/-- Python `==` on embedded values, as used by `_partial_compare_eq`
and by dict-key membership.  `None` and `Ellipsis` equal only
themselves; strings compare as strings; lists and tuples compare
elementwise against the same kind only (a list never equals a tuple);
numeric values (`bool`, `int`, `float`) compare by numeric value, so
`True == 1` and `1 == 1.0` hold as in CPython; dicts compare by
CPython's rule — equal lengths and every key of the first present in
the second (by `==`) with `==`-equal value — which is insensitive to
insertion order. -/
def pyEq : PyVal → PyVal → Bool
  | .none, .none => true
  | .str a, .str b => a == b
  | .list a, .list b => pyEqList a b
  | .tuple a, .tuple b => pyEqList a b
  | .dict a, .dict b => (a.length == b.length) && pyDictSubset a b
  | .ellipsis, .ellipsis => true
  | v1, v2 =>
    match pyNum? v1, pyNum? v2 with
    | Option.some q1, Option.some q2 => q1 == q2
    | _, _ => false
termination_by v1 v2 => sizeOf v1 + sizeOf v2

/-- Elementwise `==` on value lists (lengths must agree). -/
def pyEqList : List PyVal → List PyVal → Bool
  | [], [] => true
  | x :: xs, y :: ys => pyEq x y && pyEqList xs ys
  | _, _ => false
termination_by a b => sizeOf a + sizeOf b

/-- Every entry of the first dict is present in the second: its key is
found there by `==` and the associated values are `==`-equal. -/
def pyDictSubset : List (PyVal × PyVal) → List (PyVal × PyVal) → Bool
  | [], _ => true
  | (k, v) :: rest, b => pyEntryFind k v b && pyDictSubset rest b
termination_by a b => sizeOf a + sizeOf b

/-- Scan a dict for the (first) entry whose key is `==` to `k` and
compare its value with `v`; `false` when no key matches. -/
def pyEntryFind (k v : PyVal) : List (PyVal × PyVal) → Bool
  | [] => false
  | (k2, v2) :: b => if pyEq k k2 then pyEq v v2 else pyEntryFind k v b
termination_by b => sizeOf k + sizeOf v + sizeOf b
end

/-- Dictionary lookup: `d[k]` returning `some` value when `k in d`,
`Option.none` when the key is absent.  Membership and indexing go
through Python `==` on keys, so `True` finds the key `1` exactly as in
CPython. -/
def dictLookup : List (PyVal × PyVal) → PyVal → Option PyVal
  | [], _ => Option.none
  | (k2, v) :: rest, k => if pyEq k k2 then Option.some v else dictLookup rest k

/-- Storage for a `partial_compare` error: `error` is a descriptive
string, or `Option.none` when no error was found
(class `PartialCompareOutcome`). -/
structure PartialCompareOutcome where
  error : Option String
deriving DecidableEq

/-- Method `__bool__`: the outcome evaluates to `True` exactly when no error
was found. -/
def PartialCompareOutcome.toBool (o : PartialCompareOutcome) : Bool :=
  o.error.isNone

/-- All suffixes of a character list, longest first (the list itself
down to `[]`). -/
def suffixes : List Char → List (List Char)
  | [] => [[]]
  | c :: cs => (c :: cs) :: suffixes cs

/-- Anchored matching of a character list `vs` against a pattern list
`ps` in which `*` matches any run of characters and every other
character is literal.  This is the semantics of
`re.fullmatch('.*'.join(re.escape(part) for part in pattern.split('*')),
value, flags=re.DOTALL)`: splitting the pattern on `*`, escaping each
part and joining with `.*` yields exactly the original pattern with
each `*` read as "any character sequence" (DOTALL makes `.` also match
newlines) and everything else literal, anchored at both ends. -/
def wildMatch : List Char → List Char → Bool
  | [], vs => vs.isEmpty
  | p :: ps, vs =>
    if p = '*' then
      (suffixes vs).any fun vs2 => wildMatch ps vs2
    else
      match vs with
      | [] => false
      | c :: cs => p == c && wildMatch ps cs

/-- Function `pattern_match`: fnmatch-like matching with only `*` active.
Returns `true` on a match, `false` otherwise. -/
def pattern_match (pattern value : String) : Bool :=
  wildMatch pattern.toList value.toList

/-- The `pytest.approx` comparison for scalars, modelled from the
pytest documentation on rationals: `actual == approx(expected)` holds
when `abs(actual - expected)` is at most
`max(rel * abs(expected), abs_tol)` with the default relative
tolerance `1e-6` and absolute tolerance `1e-12`. -/
def pytestApprox (actual expected : ℚ) : Bool :=
  decide (|actual - expected| ≤
    max ((1 / 1000000) * |expected|) (1 / 1000000000000))

/-- Handler `_partial_compare_float`: succeed when `val1 == pytest.approx(val2)`,
otherwise report a float-comparison mismatch. -/
def _partial_compare_float (val1 val2 : ℚ) : PartialCompareOutcome :=
  if pytestApprox val1 val2 then ⟨Option.none⟩
  else ⟨Option.some (pyRepr (.float val1) ++ " != " ++ pyRepr (.float val2) ++
    " (float comparison)")⟩

/-- Handler `_partial_compare_str`: succeed when `val1` matches the pattern
`val2`, otherwise report a pattern-matching mismatch. -/
def _partial_compare_str (val1 val2 : String) : PartialCompareOutcome :=
  if pattern_match val2 val1 then ⟨Option.none⟩
  else ⟨Option.some (pyRepr (.str val1) ++ " != " ++ pyRepr (.str val2) ++
    " (pattern matching)")⟩

/-- Handler `_partial_compare_eq`: plain `==` comparison. -/
def _partial_compare_eq (val1 val2 : PyVal) : PartialCompareOutcome :=
  if pyEq val1 val2 then ⟨Option.none⟩
  else ⟨Option.some (pyRepr val1 ++ " != " ++ pyRepr val2)⟩

mutual
/-- Function `partial_compare`: partial comparison between two values.  For
dicts, keys in `val2` are checked, others are ignored.  For lists,
entries at the positions in `val2` are checked, others ignored.  For
other values, `==` is used.  An `Ellipsis` in `val2` matches anything;
otherwise differing concrete types are an immediate mismatch, and the
handler is chosen by the (common) type of the values. -/
def partial_compare (val1 val2 : PyVal) : PartialCompareOutcome :=
  match val1, val2 with
  | _, .ellipsis => ⟨Option.none⟩
  | .dict d1, .dict d2 => _partial_compare_dict d1 d2
  | .list l1, .list l2 => _partial_compare_list l1 l2
  | .float f1, .float f2 => _partial_compare_float f1 f2
  | .str s1, .str s2 => _partial_compare_str s1 s2
  | v1, v2 =>
    if pyType v1 = pyType v2 then
      _partial_compare_eq v1 v2
    else
      ⟨Option.some ("Different types (" ++ pyTypeName (pyType v1) ++ ", " ++
        pyTypeName (pyType v2) ++ ") -> False")⟩
termination_by (sizeOf val2, 0)

/-- Handler `_partial_compare_dict`: for each key of the second dict, the key
must be present in the first dict and the two values must compare
recursively; the first failing outcome is returned as-is. -/
def _partial_compare_dict (d1 : List (PyVal × PyVal)) :
    List (PyVal × PyVal) → PartialCompareOutcome
  | [] => ⟨Option.none⟩
  | (key, v2) :: rest =>
    match dictLookup d1 key with
    | Option.none =>
        ⟨Option.some ("Key " ++ pyRepr key ++
          " is in second dict but not in first!")⟩
    | Option.some v1 =>
      match partial_compare v1 v2 with
      | ⟨Option.none⟩ => _partial_compare_dict d1 rest
      | out => out
termination_by d2 => (sizeOf d2, 1)

/-- Handler `_partial_compare_list`: a longer second list always fails;
otherwise the zipped positions are compared pairwise. -/
def _partial_compare_list (l1 l2 : List PyVal) : PartialCompareOutcome :=
  if l1.length < l2.length then
    ⟨Option.some "Second list is longer than first list"⟩
  else
    zipCompare l1 l2
termination_by (sizeOf l2, 1)

/-- The `for item1, item2 in zip(val1, val2)` loop of
`_partial_compare_list`: pairwise comparison up to the shorter list,
returning the first failing outcome. -/
def zipCompare : List PyVal → List PyVal → PartialCompareOutcome
  | x :: xs, y :: ys =>
    match partial_compare x y with
    | ⟨Option.none⟩ => zipCompare xs ys
    | out => out
  | _, _ => ⟨Option.none⟩
termination_by _ l2 => (sizeOf l2, 0)
end

/-! ### Packaging script (`scripts/freeze.py`)

The script runs `write_git_file()` and `cx_Freeze`'s `setup(...)` inside
a `try:` block; the `finally:` block removes the generated
`qutebrowser/git-commit-id` file when `BASEDIR` is known and the file
exists.  `setup` is a third-party call and is kept abstract; the
filesystem is abstracted to whether the git-commit-id file exists. -/

/-- Result of running a Python block: normal completion or a
propagating exception described by a string. -/
inductive PyResult (α : Type) where
  | ok : α → PyResult α
  | exn : String → PyResult α
deriving DecidableEq

/-- The filesystem state the packaging script touches: whether
`qutebrowser/git-commit-id` exists. -/
structure FreezeFS where
  gitCommitId : Bool
deriving DecidableEq

/-- Function `write_git_file()` (from `scripts.setupcommon`): generates the
`git-commit-id` metadata file. -/
def write_git_file (s : FreezeFS) : FreezeFS :=
  { s with gitCommitId := true }

/-- The `try:` body of the script: write the git-commit-id file, then
run `setup(...)`; `setup` is an abstract action that may update the
state and either complete or raise. -/
def freezeBody (setup : FreezeFS → PyResult Unit × FreezeFS)
    (s : FreezeFS) : PyResult Unit × FreezeFS :=
  setup (write_git_file s)

/-- The `finally:` block: when `BASEDIR` is known, remove
`qutebrowser/git-commit-id` if it exists. -/
def freezeCleanup (basedir : Option String) (s : FreezeFS) : FreezeFS :=
  match basedir with
  | Option.none => s
  | Option.some _ =>
    if s.gitCommitId then { s with gitCommitId := false } else s

/-- Statement `try ... finally`: the finally block always runs, and the body's
result — normal or exceptional — is what the whole statement yields
(the cleanup here raises nothing of its own). -/
def pyTryFinally {σ : Type} (body : σ → PyResult Unit × σ) (fin : σ → σ)
    (s : σ) : PyResult Unit × σ :=
  let r := body s
  (r.1, fin r.2)

/-- The whole `try/finally` at the end of `scripts/freeze.py`. -/
def runFreeze (basedir : Option String)
    (setup : FreezeFS → PyResult Unit × FreezeFS)
    (s : FreezeFS) : PyResult Unit × FreezeFS :=
  pyTryFinally (freezeBody setup) (freezeCleanup basedir) s

/-- Declarative matching relation, written from the specified rule:
the empty pattern matches the empty value; a literal character matches
itself followed by a matching remainder; `*` matches an arbitrary run
of characters (possibly empty, newlines included) followed by a
matching remainder.  The whole value is anchored: a match must consume
the pattern and the value completely. -/
inductive WildSpec : List Char → List Char → Prop where
  | done : WildSpec [] []
  | lit : ∀ (c : Char) (ps vs : List Char),
      c ≠ '*' → WildSpec ps vs → WildSpec (c :: ps) (c :: vs)
  | star : ∀ (ps g vs : List Char),
      WildSpec ps vs → WildSpec ('*' :: ps) (g ++ vs)

/-! ### Lemmas about `suffixes` and `wildMatch` -/

theorem self_mem_suffixes (vs : List Char) : vs ∈ suffixes vs := by
  cases vs <;> simp [suffixes]

theorem nil_mem_suffixes (vs : List Char) : [] ∈ suffixes vs := by
  induction vs with
  | nil => simp [suffixes]
  | cons c cs ih => exact List.mem_cons_of_mem _ ih

theorem mem_suffixes_append (g vs : List Char) : vs ∈ suffixes (g ++ vs) := by
  induction g with
  | nil => simpa using self_mem_suffixes vs
  | cons c g ih =>
    simp only [List.cons_append, suffixes]
    exact List.mem_cons_of_mem _ ih

theorem mem_suffixes_exists {vs2 vs : List Char} (h : vs2 ∈ suffixes vs) :
    ∃ g, vs = g ++ vs2 := by
  induction vs with
  | nil =>
    simp [suffixes] at h
    exact ⟨[], by simp [h]⟩
  | cons c cs ih =>
    simp only [suffixes, List.mem_cons] at h
    rcases h with h | h
    · exact ⟨[], by simp [h]⟩
    · obtain ⟨g, hg⟩ := ih h
      exact ⟨c :: g, by simp [hg]⟩

theorem wildMatch_sound : ∀ ps vs, wildMatch ps vs = true → WildSpec ps vs := by
  intro ps
  induction ps with
  | nil =>
    intro vs h
    simp only [wildMatch, List.isEmpty_iff] at h
    subst h
    exact WildSpec.done
  | cons p ps ih =>
    intro vs h
    by_cases hp : p = '*'
    · subst hp
      simp only [wildMatch, if_true, List.any_eq_true, reduceIte] at h
      obtain ⟨vs2, hmem, hm⟩ := h
      obtain ⟨g, rfl⟩ := mem_suffixes_exists hmem
      exact WildSpec.star ps g vs2 (ih vs2 hm)
    · simp only [wildMatch, if_neg hp] at h
      cases vs with
      | nil => simp at h
      | cons c cs =>
        simp only [Bool.and_eq_true, beq_iff_eq] at h
        obtain ⟨rfl, hm⟩ := h
        exact WildSpec.lit p ps cs hp (ih cs hm)

theorem wildMatch_complete : ∀ {ps vs : List Char},
    WildSpec ps vs → wildMatch ps vs = true := by
  intro ps vs h
  induction h with
  | done => rfl
  | lit c ps vs hc _ ih =>
    simp [wildMatch, if_neg hc, ih]
  | star ps g vs _ ih =>
    simp only [wildMatch, List.any_eq_true, reduceIte]
    exact ⟨vs, mem_suffixes_append g vs, ih⟩

theorem wildMatch_no_star : ∀ ps vs : List Char, '*' ∉ ps →
    (wildMatch ps vs = true ↔ ps = vs) := by
  intro ps
  induction ps with
  | nil =>
    intro vs _
    cases vs <;> simp [wildMatch]
  | cons p ps ih =>
    intro vs hns
    have hp : p ≠ '*' := fun h => hns (h ▸ List.mem_cons_self p ps)
    have hps : '*' ∉ ps := fun h => hns (List.mem_cons_of_mem _ h)
    cases vs with
    | nil => simp [wildMatch, if_neg hp]
    | cons c cs =>
      simp [wildMatch, if_neg hp, Bool.and_eq_true, beq_iff_eq, ih cs hps,
        List.cons.injEq]

/-- C1: `pattern_match` returns `true` exactly when the value matches
the pattern under the rule that `*` matches any run of characters
(newlines included) and every other character is literal, with the
whole value anchored (`WildSpec`); in particular
`pattern_match "foo*bar" "foobazbar"` is `true`,
`pattern_match "foo*bar" "foobaz"` is `false`, and a pattern without
`*` matches exactly the values equal to it. -/
theorem pattern_match_spec :
    (∀ p v : String, pattern_match p v = true ↔ WildSpec p.toList v.toList) ∧
    pattern_match "foo*bar" "foobazbar" = true ∧
    pattern_match "foo*bar" "foobaz" = false ∧
    (∀ p v : String, '*' ∉ p.toList → (pattern_match p v = true ↔ p = v)) := by
  refine ⟨fun p v => ⟨wildMatch_sound _ _, wildMatch_complete⟩,
    by decide, by decide, ?_⟩
  intro p v hns
  rw [pattern_match, wildMatch_no_star _ _ hns, String.toList_inj]

/-- Closed instance of `pattern_match_spec`: the starless pattern
`"abc"` matches exactly itself. -/
theorem pattern_match_spec_witness : pattern_match "abc" "abc" = true :=
  (pattern_match_spec.2.2.2 "abc" "abc" (by decide)).mpr rfl

/-- C10: `*` also matches the empty run: `"foo*bar"` matches
`"foobar"`, the pattern `"*"` matches every value (the empty one
included), and the empty pattern matches only the empty value. -/
theorem pattern_match_star_empty :
    pattern_match "foo*bar" "foobar" = true ∧
    (∀ v : String, pattern_match "*" v = true) ∧
    (∀ v : String, pattern_match "" v = true ↔ v = "") := by
  refine ⟨by decide, ?_, ?_⟩
  · intro v
    show wildMatch ['*'] v.toList = true
    simp only [wildMatch, List.any_eq_true, reduceIte]
    exact ⟨[], nil_mem_suffixes _, rfl⟩
  · intro v
    show wildMatch [] v.toList = true ↔ v = ""
    simp only [wildMatch, List.isEmpty_iff]
    rw [show ([] : List Char) = ("" : String).toList from rfl, String.toList_inj]

/-! ### Lemmas about `partial_compare` -/

theorem toBool_iff (o : PartialCompareOutcome) :
    o.toBool = true ↔ o.error = Option.none := by
  simp [PartialCompareOutcome.toBool, Option.isNone_iff_eq_none]

theorem partial_compare_dict_eq (d1 d2 : List (PyVal × PyVal)) :
    partial_compare (PyVal.dict d1) (PyVal.dict d2) =
      _partial_compare_dict d1 d2 := by
  simp [partial_compare]

theorem partial_compare_list_eq (l1 l2 : List PyVal) :
    partial_compare (PyVal.list l1) (PyVal.list l2) =
      _partial_compare_list l1 l2 := by
  simp [partial_compare]

theorem partial_compare_float_eq (a e : ℚ) :
    partial_compare (PyVal.float a) (PyVal.float e) =
      _partial_compare_float a e := by
  simp [partial_compare]

theorem dict_success_iff (d1 : List (PyVal × PyVal)) :
    ∀ d2 : List (PyVal × PyVal),
      (_partial_compare_dict d1 d2).error = Option.none ↔
        ∀ k v2 : PyVal, (k, v2) ∈ d2 →
          ∃ v1, dictLookup d1 k = Option.some v1 ∧
            (partial_compare v1 v2).error = Option.none := by
  intro d2
  induction d2 with
  | nil => simp [_partial_compare_dict]
  | cons e rest ih =>
    obtain ⟨k, v2⟩ := e
    cases hl : dictLookup d1 k with
    | none =>
      simp only [_partial_compare_dict, hl]
      constructor
      · intro h
        simp at h
      · intro h
        obtain ⟨v1, hv1, _⟩ := h k v2 (List.mem_cons_self _ _)
        rw [hl] at hv1
        exact absurd hv1 (by simp)
    | some v1 =>
      cases hc : partial_compare v1 v2 with
      | mk e2 =>
        cases e2 with
        | none =>
          simp only [_partial_compare_dict, hl, hc]
          rw [ih]
          constructor
          · intro h k2 w2 hmem
            rcases List.mem_cons.mp hmem with heq | hmem2
            · obtain ⟨rfl, rfl⟩ := Prod.mk.injEq .. ▸ heq
              exact ⟨v1, hl, by rw [hc]⟩
            · exact h k2 w2 hmem2
          · intro h k2 w2 hmem2
            exact h k2 w2 (List.mem_cons_of_mem _ hmem2)
        | some s =>
          simp only [_partial_compare_dict, hl, hc]
          constructor
          · intro h
            simp at h
          · intro h
            obtain ⟨w, hw, hsucc⟩ := h k v2 (List.mem_cons_self _ _)
            rw [hl] at hw
            injection hw with hw
            subst hw
            rw [hc] at hsucc
            simp at hsucc

/-- C2: success of dict comparison is equivalent to every key of the
expected dict being present in the actual dict (presence through
Python `==` on keys) with recursively comparing value; extra keys of
the actual dict never cause failure (success depends only on the
expected entries), and a key of the expected dict that is absent from
the actual dict always yields a failing outcome.  The final conjunct
exercises cross-type key membership: the expected key `True` is found
in the actual dict whose key is the int `1`, as in CPython. -/
theorem partial_compare_dict_spec :
    (∀ d1 d2 : List (PyVal × PyVal),
      (partial_compare (PyVal.dict d1) (PyVal.dict d2)).toBool = true ↔
        ∀ k v2 : PyVal, (k, v2) ∈ d2 →
          ∃ v1, dictLookup d1 k = Option.some v1 ∧
            (partial_compare v1 v2).toBool = true) ∧
    (∀ (d1 d2 : List (PyVal × PyVal)) (k v2 : PyVal), (k, v2) ∈ d2 →
      dictLookup d1 k = Option.none →
      (partial_compare (PyVal.dict d1) (PyVal.dict d2)).toBool = false) ∧
    (partial_compare (PyVal.dict [(PyVal.int 1, PyVal.str "x")])
      (PyVal.dict [(PyVal.bool true, PyVal.str "x")])).toBool = true := by
  have key : ∀ d1 d2 : List (PyVal × PyVal),
      (partial_compare (PyVal.dict d1) (PyVal.dict d2)).toBool = true ↔
        ∀ k v2 : PyVal, (k, v2) ∈ d2 →
          ∃ v1, dictLookup d1 k = Option.some v1 ∧
            (partial_compare v1 v2).toBool = true := by
    intro d1 d2
    rw [partial_compare_dict_eq, toBool_iff, dict_success_iff]
    constructor
    · intro h k v2 hmem
      obtain ⟨v1, hv1, hs⟩ := h k v2 hmem
      exact ⟨v1, hv1, (toBool_iff _).mpr hs⟩
    · intro h k v2 hmem
      obtain ⟨v1, hv1, hs⟩ := h k v2 hmem
      exact ⟨v1, hv1, (toBool_iff _).mp hs⟩
  refine ⟨key, ?_, ?_⟩
  · intro d1 d2 k v2 hmem hnone
    rw [Bool.eq_false_iff]
    intro htrue
    obtain ⟨v1, hv1, _⟩ := (key d1 d2).mp htrue k v2 hmem
    rw [hnone] at hv1
    exact absurd hv1 (by simp)
  · have hstr : partial_compare (PyVal.str "x") (PyVal.str "x") =
        ⟨Option.none⟩ := by
      simp [partial_compare, _partial_compare_str,
        (by decide : pattern_match "x" "x" = true)]
    simp [partial_compare, _partial_compare_dict, dictLookup, pyEq, pyNum?,
      hstr, PartialCompareOutcome.toBool]

/-- Closed instance of `partial_compare_dict_spec`: a key present in
the expected dict but absent from the actual dict fails. -/
theorem partial_compare_dict_spec_witness :
    (partial_compare (PyVal.dict [(PyVal.str "a", PyVal.int 1)])
      (PyVal.dict [(PyVal.str "b", PyVal.int 2)])).toBool = false :=
  partial_compare_dict_spec.2.1 _ _ (PyVal.str "b") (PyVal.int 2)
    (List.mem_cons_self _ _) (by simp [dictLookup, pyEq])

theorem zipCompare_success_iff : ∀ l2 l1 : List PyVal,
    (zipCompare l1 l2).error = Option.none ↔
      ∀ i : ℕ, i < l1.length → i < l2.length →
        (partial_compare (l1.getD i PyVal.none)
          (l2.getD i PyVal.none)).error = Option.none := by
  intro l2
  induction l2 with
  | nil =>
    intro l1
    constructor
    · intro _ i _ hi
      exact absurd hi (Nat.not_lt_zero i)
    · intro _
      cases l1 <;> simp [zipCompare]
  | cons y ys ih =>
    intro l1
    cases l1 with
    | nil =>
      constructor
      · intro _ i hi _
        exact absurd hi (Nat.not_lt_zero i)
      · intro _
        simp [zipCompare]
    | cons x xs =>
      cases hc : partial_compare x y with
      | mk e =>
        cases e with
        | none =>
          have hstep : zipCompare (x :: xs) (y :: ys) = zipCompare xs ys := by
            simp [zipCompare, hc]
          rw [hstep, ih]
          constructor
          · intro h i h1 h2
            cases i with
            | zero => simp [hc]
            | succ j =>
              simp only [List.getD_cons_succ]
              exact h j (Nat.lt_of_succ_lt_succ h1) (Nat.lt_of_succ_lt_succ h2)
          · intro h i h1 h2
            have := h (i + 1) (Nat.succ_lt_succ h1) (Nat.succ_lt_succ h2)
            simpa using this
        | some s =>
          have hstep : zipCompare (x :: xs) (y :: ys) = ⟨Option.some s⟩ := by
            simp [zipCompare, hc]
          rw [hstep]
          constructor
          · intro h
            simp at h
          · intro h
            have := h 0 (Nat.succ_pos _) (Nat.succ_pos _)
            simp only [List.getD_cons_zero] at this
            rw [hc] at this
            simp at this

/-- C3: list comparison fails whenever the actual list is shorter than
the expected list; otherwise it succeeds exactly when each position
below the expected length compares successfully, positions of the
actual list beyond the expected length playing no role. -/
theorem partial_compare_list_spec : ∀ l1 l2 : List PyVal,
    (l1.length < l2.length →
      (partial_compare (PyVal.list l1) (PyVal.list l2)).toBool = false) ∧
    (l2.length ≤ l1.length →
      ((partial_compare (PyVal.list l1) (PyVal.list l2)).toBool = true ↔
        ∀ i : ℕ, i < l2.length →
          (partial_compare (l1.getD i PyVal.none)
            (l2.getD i PyVal.none)).toBool = true)) := by
  intro l1 l2
  constructor
  · intro hlen
    rw [partial_compare_list_eq]
    simp [_partial_compare_list, hlen, PartialCompareOutcome.toBool]
  · intro hlen
    rw [partial_compare_list_eq]
    have hnot : ¬ l1.length < l2.length := Nat.not_lt.mpr hlen
    rw [show _partial_compare_list l1 l2 = zipCompare l1 l2 by
      simp [_partial_compare_list, hnot]]
    rw [toBool_iff, zipCompare_success_iff]
    constructor
    · intro h i hi
      exact (toBool_iff _).mpr (h i (Nat.lt_of_lt_of_le hi hlen) hi)
    · intro h i _ hi
      exact (toBool_iff _).mp (h i hi)

/-- Closed instance of `partial_compare_list_spec`: a longer expected
list always fails. -/
theorem partial_compare_list_spec_witness :
    (partial_compare (PyVal.list []) (PyVal.list [PyVal.int 1])).toBool = false :=
  (partial_compare_list_spec [] [PyVal.int 1]).1 (by decide)

/-- C4: whenever the expected value is not the `Ellipsis` sentinel and
the two values have different concrete types, `partial_compare` fails,
whatever the values are; in particular the integer `1` does not compare
equal to the string `"1"`. -/
theorem partial_compare_type_mismatch_spec :
    (∀ v1 v2 : PyVal, v2 ≠ PyVal.ellipsis → pyType v1 ≠ pyType v2 →
      (partial_compare v1 v2).toBool = false) ∧
    (partial_compare (PyVal.int 1) (PyVal.str "1")).toBool = false := by
  have key : ∀ v1 v2 : PyVal, v2 ≠ PyVal.ellipsis → pyType v1 ≠ pyType v2 →
      (partial_compare v1 v2).toBool = false := by
    intro v1 v2 hne hty
    cases v1 <;> cases v2 <;>
      first
      | exact absurd rfl hne
      | exact absurd rfl hty
      | simp [partial_compare, pyType, PartialCompareOutcome.toBool]
  exact ⟨key, key _ _ (fun h => PyVal.noConfusion h) (by decide)⟩

/-- Closed instance of `partial_compare_type_mismatch_spec`: `True`
(a bool) never compares equal to `0` (an int). -/
theorem partial_compare_type_mismatch_spec_witness :
    (partial_compare (PyVal.bool true) (PyVal.int 0)).toBool = false :=
  partial_compare_type_mismatch_spec.1 _ _ (fun h => PyVal.noConfusion h)
    (by decide)

/-- C5: the `Ellipsis` sentinel as expected value yields a successful
outcome for every actual value. -/
theorem partial_compare_ellipsis_spec : ∀ v1 : PyVal,
    partial_compare v1 PyVal.ellipsis = ⟨Option.none⟩ ∧
    (partial_compare v1 PyVal.ellipsis).toBool = true := by
  intro v1
  have h : partial_compare v1 PyVal.ellipsis = ⟨Option.none⟩ := by
    cases v1 <;> simp [partial_compare]
  exact ⟨h, by rw [h]; rfl⟩

/-- C6: `partial_compare` yields a structured outcome, not a bare
boolean: the outcome carries an optional descriptive mismatch string,
it is truthy exactly when that error is absent, and inside dicts and
lists the recursion short-circuits — the first failing recursive
outcome is returned as-is, whatever entries follow it. -/
theorem partial_compare_outcome_spec :
    (∀ o : PartialCompareOutcome, o.toBool = true ↔ o.error = Option.none) ∧
    (∀ (d1 : List (PyVal × PyVal)) (k v2 v1 : PyVal)
        (rest : List (PyVal × PyVal)),
      dictLookup d1 k = Option.some v1 →
      (partial_compare v1 v2).error ≠ Option.none →
      _partial_compare_dict d1 ((k, v2) :: rest) = partial_compare v1 v2) ∧
    (∀ (x y : PyVal) (xs ys : List PyVal),
      (partial_compare x y).error ≠ Option.none →
      zipCompare (x :: xs) (y :: ys) = partial_compare x y) := by
  refine ⟨toBool_iff, ?_, ?_⟩
  · intro d1 k v2 v1 rest hl herr
    cases hc : partial_compare v1 v2 with
    | mk e =>
      cases e with
      | none =>
        rw [hc] at herr
        simp at herr
      | some s =>
        simp [_partial_compare_dict, hl, hc]
  · intro x y xs ys herr
    cases hc : partial_compare x y with
    | mk e =>
      cases e with
      | none =>
        rw [hc] at herr
        simp at herr
      | some s =>
        simp [zipCompare, hc]

/-- Closed instance of `partial_compare_outcome_spec`: a failing first
position is returned as the whole outcome of the list loop. -/
theorem partial_compare_outcome_spec_witness :
    zipCompare [PyVal.int 1] [PyVal.int 2] =
      partial_compare (PyVal.int 1) (PyVal.int 2) :=
  partial_compare_outcome_spec.2.2 (PyVal.int 1) (PyVal.int 2) [] []
    (by simp [partial_compare, pyType, _partial_compare_eq, pyEq, pyNum?])

/-- C7: for float scalars `partial_compare` delegates to the
approximate `pytest.approx` comparison instead of exact equality: it
succeeds exactly when the distance of the values is within the
tolerance, in particular always on equal values, and also on some
distinct values. -/
theorem partial_compare_float_spec :
    (∀ a e : ℚ, partial_compare (PyVal.float a) (PyVal.float e) =
      _partial_compare_float a e) ∧
    (∀ a e : ℚ, (_partial_compare_float a e).toBool = true ↔
      |a - e| ≤ max ((1 / 1000000) * |e|) (1 / 1000000000000)) ∧
    (∀ a : ℚ, (_partial_compare_float a a).toBool = true) ∧
    (_partial_compare_float (1 + 1 / 1000000000) 1).toBool = true ∧
    (1 + 1 / 1000000000 : ℚ) ≠ 1 := by
  have htb : ∀ a e : ℚ, (_partial_compare_float a e).toBool = pytestApprox a e := by
    intro a e
    cases h : pytestApprox a e <;>
      simp [_partial_compare_float, h, PartialCompareOutcome.toBool]
  have hiff : ∀ a e : ℚ, (_partial_compare_float a e).toBool = true ↔
      |a - e| ≤ max ((1 / 1000000) * |e|) (1 / 1000000000000) := by
    intro a e
    rw [htb]
    simp only [pytestApprox, decide_eq_true_eq]
  refine ⟨partial_compare_float_eq, hiff, ?_, ?_, by norm_num⟩
  · intro a
    rw [hiff]
    simp only [sub_self, abs_zero]
    exact le_max_of_le_right (by norm_num)
  · rw [hiff]
    have h1 : (1 + 1 / 1000000000 - 1 : ℚ) = 1 / 1000000000 := by ring
    rw [h1, abs_of_pos (by norm_num : (0 : ℚ) < 1 / 1000000000)]
    refine le_max_of_le_left ?_
    rw [abs_one]
    norm_num

/-- C9: for same-typed values whose common type is none of dict, list,
float or str (integers, booleans, `None`, tuples), `partial_compare`
falls back to the `==` handler and succeeds exactly on `==`-equal
values, where `==` is Python equality; the final conjunct exercises
CPython's cross-type element equality inside that fallback: the tuple
`(1,)` compares equal to the tuple `(True,)`. -/
theorem partial_compare_eq_fallback_spec :
    (∀ v1 v2 : PyVal, v2 ≠ PyVal.ellipsis → pyType v1 = pyType v2 →
      pyType v2 ∉ ([PyType.dictType, PyType.listType, PyType.floatType,
        PyType.strType] : List PyType) →
      partial_compare v1 v2 = _partial_compare_eq v1 v2 ∧
      ((partial_compare v1 v2).toBool = true ↔ pyEq v1 v2 = true)) ∧
    (partial_compare (PyVal.tuple [PyVal.int 1])
      (PyVal.tuple [PyVal.bool true])).toBool = true := by
  constructor
  · intro v1 v2 hne hty hnot
    have heq : partial_compare v1 v2 = _partial_compare_eq v1 v2 := by
      cases v1 <;> cases v2 <;>
        first
        | exact absurd rfl hne
        | (exfalso; revert hnot; simp [pyType]; done)
        | (exfalso; revert hty; simp [pyType]; done)
        | simp [partial_compare, pyType]
    refine ⟨heq, ?_⟩
    rw [heq]
    by_cases hb : pyEq v1 v2 <;>
      simp [_partial_compare_eq, hb, PartialCompareOutcome.toBool]
  · simp [partial_compare, pyType, _partial_compare_eq, pyEq, pyEqList,
      pyNum?, PartialCompareOutcome.toBool]

/-- Closed instance of `partial_compare_eq_fallback_spec`: equal
integers compare successfully through the `==` fallback. -/
theorem partial_compare_eq_fallback_spec_witness :
    (partial_compare (PyVal.int 3) (PyVal.int 3)).toBool = true :=
  ((partial_compare_eq_fallback_spec.1 (PyVal.int 3) (PyVal.int 3)
    (fun h => PyVal.noConfusion h) rfl (by decide)).2).mpr (by simp [pyEq, pyNum?])

/-- C8: whatever `setup` does — finish normally or raise — running the
packaging script's `try/finally` leaves the `git-commit-id` file
removed, and the body's result (exceptions included) propagates
unchanged to the caller. -/
theorem freeze_cleanup_spec :
    ∀ (setup : FreezeFS → PyResult Unit × FreezeFS) (b : String)
      (s : FreezeFS),
      (runFreeze (Option.some b) setup s).2.gitCommitId = false ∧
      (runFreeze (Option.some b) setup s).1 = (setup (write_git_file s)).1 := by
  intro setup b s
  unfold runFreeze pyTryFinally freezeBody freezeCleanup
  constructor
  · by_cases h : (setup (write_git_file s)).2.gitCommitId <;> simp [h]
  · rfl

/-- Closed instance of `partial_compare_ellipsis_spec`: an integer
against the ellipsis sentinel succeeds. -/
theorem partial_compare_ellipsis_spec_witness :
    (partial_compare (PyVal.int 7) PyVal.ellipsis).toBool = true :=
  (partial_compare_ellipsis_spec (PyVal.int 7)).2

/-- Closed instance of `partial_compare_float_spec`: a float compared
against itself succeeds. -/
theorem partial_compare_float_spec_witness :
    (_partial_compare_float (5 : ℚ) 5).toBool = true :=
  partial_compare_float_spec.2.2.1 5

/-- Closed instance of `freeze_cleanup_spec`: a raising `setup` still
leaves the git-commit-id file removed. -/
theorem freeze_cleanup_spec_witness :
    (runFreeze (Option.some "base")
      (fun s => (PyResult.exn "boom", s)) ⟨false⟩).2.gitCommitId = false :=
  (freeze_cleanup_spec (fun s => (PyResult.exn "boom", s)) "base" ⟨false⟩).1

/-- Closed instance of `pattern_match_star_empty`: the single-star
pattern matches an arbitrary value. -/
theorem pattern_match_star_empty_witness :
    pattern_match "*" "anything" = true :=
  pattern_match_star_empty.2.1 "anything"
